import Mathlib

/-!
# thor-slack-agent: the sampling, ranking and alerting cycle of `cmd/main.go`

A shallow embedding of `collectMetrics`, `getProcess`, `SendSlackAlert` and of one
iteration of the `for` loop of `main`.

Conventions of the embedding:

* a Go `(value, error)` return is a `GoResult`: the value together with a flag that is
  `true` when the error is non-nil; the code decides what it does with either part;
* a Go slice is its visible elements together with its capacity (`Slice`), because
  `s[:5]` is checked against the capacity and not against the length;
* a run-time panic is the `Outcome.panic` result;
* a finite `float64` / `float32` percentage is the rational number it denotes, which is
  exact for the comparisons and for the decimal formatting the program performs.  The
  one place where the program does floating-point arithmetic (`math.Round(x*10) / 10`)
  rounds the product and the quotient to binary64 with `float64`, round to nearest,
  ties to even; overflow to an infinity is outside the model, so statements about that
  line assume a raw value whose tenfold stays in range;
* everything the program obtains from outside `main.go` (gopsutil, `sort.Slice`,
  `append` growth, `encoding/json`, `net/http`, the clock) is an explicit input:
  the answers of the host are a `Host`, the library operations a `Runtime`.
-/

namespace ThorAgent

/-! ## Go values -/

/-- A Go `(value, error)` return pair; `err = true` stands for a non-nil error. -/
structure GoResult (α : Type) where
  val : α
  err : Bool

/-- Result of running Go code that may stop with a run-time panic. -/
inductive Outcome (α : Type) where
  | ok (a : α)
  | panic (msg : String)
deriving DecidableEq

/-- A Go slice: the elements below `len`, and the capacity of the backing array. -/
structure Slice (α : Type) where
  items : List α
  cap : Nat
deriving DecidableEq

/-- The nil slice (`var s []T`): length 0, capacity 0. -/
def Slice.nil {α : Type} : Slice α := { items := [], cap := 0 }

/-- Go `append(s, x)`: writes in place while the capacity allows it, otherwise moves to a
backing array whose capacity `growCap oldCap newLen` is chosen by the runtime. -/
def Slice.append {α : Type} (growCap : Nat → Nat → Nat) (s : Slice α) (x : α) : Slice α :=
  if s.items.length + 1 ≤ s.cap then
    { items := s.items ++ [x], cap := s.cap }
  else
    { items := s.items ++ [x], cap := growCap s.cap (s.items.length + 1) }

/-- Go `s[:n]`: panics unless `n ≤ cap(s)`; otherwise the first `n` cells of the backing
array, whose cells between `len(s)` and `cap(s)` hold the zero value. -/
def Slice.sliceTo {α : Type} (zero : α) (s : Slice α) (n : Nat) : Outcome (Slice α) :=
  if n ≤ s.cap then
    Outcome.ok
      { items := (s.items ++ List.replicate (s.cap - s.items.length) zero).take n,
        cap := s.cap }
  else
    Outcome.panic
      ("runtime error: slice bounds out of range [:" ++ toString n ++ "] with capacity "
        ++ toString s.cap)

/-! ## Data model (`main.go` lines 21-48) -/

/-- Go `type ProcessInfo struct`. -/
structure ProcessInfo where
  Pid : Int
  Name : String
  CPU : ℚ
  Memory : ℚ
  CommandLine : String
deriving DecidableEq

/-- The zero value `ProcessInfo{}`. -/
def ProcessInfo.zero : ProcessInfo :=
  { Pid := 0, Name := "", CPU := 0, Memory := 0, CommandLine := "" }

/-- Go `type Metrics struct`. -/
structure Metrics where
  TID : String
  CID : String
  Key : String
  Timestamp : String
  CPUUsage : ℚ
  MemoryUsed : Nat
  MemoryTotal : Nat
  DiskUsed : Nat
  DiskTotal : Nat
  Processes : List ProcessInfo
deriving DecidableEq

/-- The package variables `cid`, `max` and `webhookUrl`, set once by `main`. -/
structure Config where
  cid : String
  max : ℚ
  webhookUrl : String

/-! ## What the host answers during one cycle -/

/-- A gopsutil process handle, with the answer each of its lookups gives. -/
structure Process where
  Pid : Int
  Name : GoResult String
  CPUPercent : GoResult ℚ
  MemoryPercent : GoResult ℚ

/-- The fields of `mem.VirtualMemoryStat` the program reads (both `uint64`). -/
structure VirtualMemoryStat where
  Total : Nat
  Used : Nat

/-- The fields of `disk.UsageStat` the program reads (both `uint64`). -/
structure UsageStat where
  Total : Nat
  Used : Nat

/-- The answers of the metrics provider and of the clock during one cycle. -/
structure Host where
  /-- Answer of `cpu.Percent(1*time.Second, false)` -/
  cpuPercent : GoResult (List ℚ)
  /-- Answer of `mem.VirtualMemory()` -/
  virtualMemory : GoResult VirtualMemoryStat
  /-- Answer of `disk.Usage("/")` -/
  diskUsage : GoResult UsageStat
  /-- Answer of `process.Processes()` -/
  processes : GoResult (List Process)
  /-- Answer of `process.NewProcess(pid)` followed by `Cmdline()` -/
  cmdline : Int → GoResult String
  /-- Value of `time.Now().Format(time.RFC3339)` -/
  now : String

/-! ## Alert payload -/

/-- The inner `map[string]string` of a section block. -/
structure TextObject where
  type : String
  text : String
deriving DecidableEq

/-- One element of `blocks`: a section map or a divider map. -/
inductive Block where
  | textSection (text : TextObject)
  | divider
deriving DecidableEq

/-- The top-level map `payload`. -/
structure Payload where
  blocks : List Block
deriving DecidableEq

/-- The arguments of one `http.Post` call. -/
structure HttpRequest where
  url : String
  contentType : String
  body : String
deriving DecidableEq

/-- The steps of one loop iteration that the claims speak of: the alert payload has been
built (`format`), `http.Post` has been called (`post`), `time.Sleep` has been called
with that many seconds (`sleep`). -/
inductive Event where
  | format (payload : Payload)
  | post (req : HttpRequest)
  | sleep (seconds : Nat)
deriving DecidableEq

/-- The library operations the program calls. -/
structure Runtime where
  /-- Capacity chosen by `append` when it has to reallocate: old capacity, needed length -/
  growCap : Nat → Nat → Nat
  /-- Effect of `sort.Slice` on the elements, for a given `less` -/
  sortSlice : (ProcessInfo → ProcessInfo → Bool) → List ProcessInfo → List ProcessInfo
  /-- Answer of `json.Marshal` -/
  jsonMarshal : Payload → GoResult String
  /-- Answer of `http.Post`: `true` when it returns a non-nil error -/
  httpPost : HttpRequest → Bool

/-! ## `getProcess` (lines 112-153) -/

/-- The comparison handed to `sort.Slice` (line 144). -/
def cpuLess (a b : ProcessInfo) : Bool := decide (a.CPU > b.CPU)

/-- The `for _, p := range processes` loop (lines 120-140), started from `processList`. -/
def getProcess.collect (growCap : Nat → Nat → Nat) :
    List Process → Slice ProcessInfo → Slice ProcessInfo
  | [], processList => processList
  | p :: rest, processList =>
    let name := p.Name.val
    if p.CPUPercent.err then getProcess.collect growCap rest processList
    else if p.MemoryPercent.err then getProcess.collect growCap rest processList
    else
      getProcess.collect growCap rest
        (processList.append growCap
          { Pid := p.Pid, Name := name, CPU := p.CPUPercent.val,
            Memory := p.MemoryPercent.val, CommandLine := "" })

/-- The second loop (lines 147-150): every element gets its command line. -/
def getProcess.fillCommandLines (cmdline : Int → GoResult String)
    (processList : List ProcessInfo) : List ProcessInfo :=
  processList.map fun e => { e with CommandLine := (cmdline e.Pid).val }

/-- The slice that reaches the `return` of line 152: collected, sorted in place, command
lines filled in. -/
def getProcess.ranked (rt : Runtime) (cmdline : Int → GoResult String)
    (processes : List Process) : Slice ProcessInfo :=
  let processList := getProcess.collect rt.growCap processes Slice.nil
  let processList : Slice ProcessInfo :=
    { processList with items := rt.sortSlice cpuLess processList.items }
  { processList with items := getProcess.fillCommandLines cmdline processList.items }

/-- Go `func getProcess() []ProcessInfo`. -/
def getProcess (rt : Runtime) (host : Host) : Outcome (List ProcessInfo) :=
  if host.processes.err then Outcome.ok []
  else
    match (getProcess.ranked rt host.cmdline host.processes.val).sliceTo ProcessInfo.zero 5 with
    | Outcome.ok s => Outcome.ok s.items
    | Outcome.panic msg => Outcome.panic msg

/-! ## binary64 arithmetic -/

/-- Nearest integer to a non-negative rational, ties to the even neighbour. -/
def roundHalfEven (x : ℚ) : Nat :=
  let f := ⌊x⌋.toNat
  let r := x - f
  if r < 1 / 2 then f else if 1 / 2 < r then f + 1 else if f % 2 = 0 then f else f + 1

/-- Nearest integer, ties away from zero. -/
def roundHalfAway (x : ℚ) : ℤ :=
  if 0 ≤ x then ⌊x + 1 / 2⌋ else -⌊-x + 1 / 2⌋

/-- Number of binary digits of `n` (0 for 0), found by halving at most `fuel` times. -/
def bitLen : Nat → Nat → Nat
  | 0, _ => 0
  | fuel + 1, n => if n = 0 then 0 else bitLen fuel (n / 2) + 1

/-- Binary exponent of a positive rational: the `e` with `2^e ≤ x < 2^(e+1)`. The
difference of the digit counts of numerator and denominator is `e` or `e + 1`. -/
def binExp (x : ℚ) : ℤ :=
  let e0 : ℤ := (bitLen x.num.natAbs x.num.natAbs : ℤ) - (bitLen x.den x.den : ℤ)
  if x < (2 : ℚ) ^ e0 then e0 - 1 else e0

/-- The binary64 value an arithmetic result is rounded to (IEEE 754 round to nearest,
ties to even): a multiple of `2^(e-52)` with at most 53 significant bits, where `e`
is the binary exponent of the result, not below -1022 (subnormal range). A result of
magnitude `2^1024` or more stands for an overflow, which the model does not
represent. -/
def float64 (x : ℚ) : ℚ :=
  if x = 0 then 0
  else
    let e := max (binExp |x|) (-1022)
    let ulp := (2 : ℚ) ^ (e - 52)
    let n := roundHalfEven (|x| / ulp)
    if x < 0 then -((n : ℚ) * ulp) else (n : ℚ) * ulp

/-- Go `math.Round` on a finite float64: the nearest integer, halves away from zero. The
result is a float64 again, so no rounding error is added. -/
def mathRound (x : ℚ) : ℚ := (roundHalfAway x : ℚ)

/-! ## `collectMetrics` (lines 75-110) -/

/-- Go `func collectMetrics() (Metrics, error)`. A panic is `Outcome.panic` (for
`panic(err)` the message names the call that failed); the function has no path that
returns a non-nil error. -/
def collectMetrics (rt : Runtime) (host : Host) : Outcome Metrics :=
  if host.cpuPercent.err then Outcome.panic "cpu.Percent"
  else
    match host.cpuPercent.val with
    | [] => Outcome.panic "runtime error: index out of range [0] with length 0"
    | c :: _ =>
      let cpuPercent0 := float64 (mathRound (float64 (c * 10)) / 10)
      if host.virtualMemory.err then Outcome.panic "mem.VirtualMemory"
      else if host.diskUsage.err then Outcome.panic "disk.Usage"
      else
        match getProcess rt host with
        | Outcome.panic msg => Outcome.panic msg
        | Outcome.ok processList =>
          Outcome.ok
            { TID := "", CID := "", Key := "",
              Timestamp := host.now,
              CPUUsage := cpuPercent0,
              MemoryUsed := host.virtualMemory.val.Used / 1024 / 1024,
              MemoryTotal := host.virtualMemory.val.Total / 1024 / 1024,
              DiskUsed := host.diskUsage.val.Used / 1024 / 1024 / 1024,
              DiskTotal := host.diskUsage.val.Total / 1024 / 1024 / 1024,
              Processes := processList }

/-! ## `SendSlackAlert` (lines 155-210) -/

/-- The `%.2f` verb of `fmt` on a finite value: the decimal expansion of the exact value
correctly rounded to two fractional digits, with the sign kept. -/
def fmtFloat2 (x : ℚ) : String :=
  let n := roundHalfEven (|x| * 100)
  let frac := n % 100
  (if x < 0 then "-" else "") ++ toString (n / 100) ++ "."
    ++ (if frac < 10 then "0" else "") ++ toString frac

/-- The `%d` verb of `fmt` on a non-negative `int`. -/
def fmtInt (n : Nat) : String := toString n

/-- The header text, `fmt.Sprintf` of line 162. -/
def headerText (cid : String) : String :=
  "*🚨 [" ++ cid ++ "] Top CPU Consuming Processes 🚨*"

/-- The fixed text of line 174. -/
def explanationText : String :=
  "Please consider cleaning up or reviewing the following processes."

/-- The process line, `fmt.Sprintf` of line 187, for the rank `i+1` already computed. -/
def processLine (rank : Nat) (p : ProcessInfo) : String :=
  "*" ++ fmtInt rank ++ ".* `" ++ p.Name ++ "` CPU - *" ++ fmtFloat2 p.CPU
    ++ "%* | Memory - *" ++ fmtFloat2 p.Memory ++ "%*"

/-- A section map with an `mrkdwn` text object. -/
def mrkdwnSection (text : String) : Block :=
  Block.textSection { type := "mrkdwn", text := text }

/-- The `for i, p := range metrics.Processes` loop (lines 182-191), from index `i`. -/
def SendSlackAlert.processBlocks : Nat → List ProcessInfo → List Block → List Block
  | _, [], blocks => blocks
  | i, p :: rest, blocks =>
    SendSlackAlert.processBlocks (i + 1) rest (blocks ++ [mrkdwnSection (processLine (i + 1) p)])

/-- The value of `blocks` when line 194 is reached. -/
def SendSlackAlert.blocks (cid : String) (metrics : Metrics) : List Block :=
  let blocks : List Block := []
  let blocks := blocks ++ [mrkdwnSection (headerText cid)]
  let blocks := blocks ++ [Block.divider]
  let blocks := blocks ++ [mrkdwnSection explanationText]
  let blocks := blocks ++ [Block.divider]
  SendSlackAlert.processBlocks 0 metrics.Processes blocks

/-- The value of `payload` (lines 194-196). -/
def SendSlackAlert.payload (cid : String) (metrics : Metrics) : Payload :=
  { blocks := SendSlackAlert.blocks cid metrics }

/-- Go `func SendSlackAlert(metrics Metrics) error`: the events it causes and whether it
returns a non-nil error. -/
def SendSlackAlert (rt : Runtime) (cfg : Config) (metrics : Metrics) : List Event × Bool :=
  let payload := SendSlackAlert.payload cfg.cid metrics
  let jsonBody := rt.jsonMarshal payload
  if jsonBody.err then ([Event.format payload], true)
  else
    let req : HttpRequest :=
      { url := cfg.webhookUrl, contentType := "application/json", body := jsonBody.val }
    if rt.httpPost req then ([Event.format payload, Event.post req], true)
    else ([Event.format payload, Event.post req], false)

/-! ## One iteration of the loop of `main` (lines 62-72) -/

/-- Lines 68-71: what happens once `collectMetrics` has returned `metrics`. -/
def mainCycle.afterSample (rt : Runtime) (cfg : Config) (metrics : Metrics) : List Event :=
  (if metrics.CPUUsage > cfg.max then (SendSlackAlert rt cfg metrics).1 else [])
    ++ [Event.sleep 5]

/-- One iteration of the `for` loop of `main`. -/
def mainCycle (rt : Runtime) (cfg : Config) (host : Host) : Outcome (List Event) :=
  match collectMetrics rt host with
  | Outcome.panic msg => Outcome.panic msg
  | Outcome.ok metrics => Outcome.ok (mainCycle.afterSample rt cfg metrics)
/-! ## A concrete runtime

The theorems below hold for every `Runtime` that meets the stated library contracts.
This instance is used to evaluate the program on concrete inputs. -/

/-- Capacity chosen by `growslice` of the gc runtime while the old capacity is below 256
elements, before the allocator rounds the size up to a size class (for the 56-byte
`ProcessInfo` the capacities 1, 2, 4 and 8 are size classes already, so the rounding
leaves them as they are): the needed length if doubling is not enough, else the double. -/
def gcGrowCap (oldCap newLen : Nat) : Nat :=
  if oldCap + oldCap < newLen then newLen else oldCap + oldCap

/-- A growth rule that is the gc rule on capacities below 256. -/
def GcGrowth (growCap : Nat → Nat → Nat) : Prop :=
  ∀ oldCap newLen, oldCap < 256 → growCap oldCap newLen = gcGrowCap oldCap newLen

/-- Insertion sort, which is what `sort.Slice` runs on slices of at most 12 elements: an
element moves left while `less` puts it before its left neighbour. -/
def insertionSortSlice (less : ProcessInfo → ProcessInfo → Bool)
    (l : List ProcessInfo) : List ProcessInfo :=
  l.insertionSort (fun a b => less b a = false)

/-- JSON string literal for text made of characters that `encoding/json` copies
unchanged, with the quote and the backslash escaped. -/
def jsonQuote (s : String) : String :=
  "\"" ++ String.join (s.toList.map fun c =>
    if c = Char.ofNat 34 then "\\\"" else if c = Char.ofNat 92 then "\\\\"
    else c.toString) ++ "\""

/-- JSON text of one block, keys in sorted order as `encoding/json` writes maps. -/
def jsonBlock : Block → String
  | Block.textSection t =>
    "\x7b\"text\":\x7b\"text\":" ++ jsonQuote t.text ++ ",\"type\":" ++ jsonQuote t.type
      ++ "\x7d,\"type\":\"section\"\x7d"
  | Block.divider => "\x7b\"type\":\"divider\"\x7d"

/-- JSON text of the payload map. -/
def jsonPayload (p : Payload) : String :=
  "\x7b\"blocks\":[" ++ String.intercalate "," (p.blocks.map jsonBlock) ++ "]\x7d"

/-- The runtime used in the examples: gc growth, insertion sort, an encoder that always
succeeds and a transport that reports no error. -/
def exampleRuntime : Runtime :=
  { growCap := gcGrowCap,
    sortSlice := insertionSortSlice,
    jsonMarshal := fun p => { val := jsonPayload p, err := false },
    httpPost := fun _ => false }

/-! ## Library contracts and derived notions -/

/-- Contract of `append`: the new backing array holds the new length. -/
def GrowContract (growCap : Nat → Nat → Nat) : Prop :=
  ∀ oldCap newLen, newLen ≤ growCap oldCap newLen

/-- Contract of `sort.Slice` for the comparison `less`: the elements are rearranged, and
afterwards no element is `less` than one standing before it. -/
def SortContract
    (sortSlice : (ProcessInfo → ProcessInfo → Bool) → List ProcessInfo → List ProcessInfo)
    (less : ProcessInfo → ProcessInfo → Bool) : Prop :=
  ∀ l, (sortSlice less l).Perm l ∧ (sortSlice less l).Pairwise (fun a b => less b a = false)

/-- A process qualifies when both its CPU-percent and its memory-percent lookup return
no error. -/
def qualifies (p : Process) : Bool := !p.CPUPercent.err && !p.MemoryPercent.err

/-- The `ProcessInfo` literal of lines 134-139 for the process `p`. -/
def candidateOf (p : Process) : ProcessInfo :=
  { Pid := p.Pid, Name := p.Name.val, CPU := p.CPUPercent.val,
    Memory := p.MemoryPercent.val, CommandLine := "" }

/-- The qualifying processes of an enumeration, in enumeration order. -/
def qualifying (processes : List Process) : List Process := processes.filter qualifies

/-- Pid, name, CPU percent and memory percent of an entry. -/
def ProcessInfo.core (e : ProcessInfo) : Int × String × ℚ × ℚ :=
  (e.Pid, e.Name, e.CPU, e.Memory)

/-- Name, CPU percent and memory percent of an entry: what an alert shows of it. -/
def ProcessInfo.shown (e : ProcessInfo) : String × ℚ × ℚ := (e.Name, e.CPU, e.Memory)

/-! ## Example inputs -/

/-- A process whose lookups all succeed. -/
def okProcess (pid : Int) (name : String) (cpu mem : ℚ) : Process :=
  { Pid := pid, Name := { val := name, err := false },
    CPUPercent := { val := cpu, err := false },
    MemoryPercent := { val := mem, err := false } }

/-- A host whose CPU, memory and disk calls succeed and that enumerates `processes`. -/
def exampleHost (processes : List Process) : Host :=
  { cpuPercent := { val := [float64 42.37], err := false },
    virtualMemory := { val := { Total := 8589934592, Used := 2147483648 }, err := false },
    diskUsage := { val := { Total := 107374182400, Used := 10737418240 }, err := false },
    processes := { val := processes, err := false },
    cmdline := fun pid => if pid = 3 then { val := "", err := true }
      else { val := "/usr/bin/app", err := false },
    now := "2024-01-01T00:00:00Z" }

/-- Three processes, one of them without a CPU percent: two qualify. -/
def twoQualifying : List Process :=
  [ okProcess 1 "chrome" 55.12 30.44,
    { Pid := 2, Name := { val := "ghost", err := false },
      CPUPercent := { val := 0, err := true },
      MemoryPercent := { val := 1, err := false } },
    okProcess 3 "node" 20 5.5 ]

/-- Eight processes: one without a memory percent, one whose name lookup fails, one
whose command-line lookup fails (pid 3); seven qualify. -/
def sevenQualifying : List Process :=
  [ okProcess 1 "a" 10 1, okProcess 2 "b" 70.5 2, okProcess 3 "c" 30 3,
    { Pid := 4, Name := { val := "d", err := false },
      CPUPercent := { val := 99, err := false },
      MemoryPercent := { val := 0, err := true } },
    { Pid := 5, Name := { val := "", err := true },
      CPUPercent := { val := 30, err := false },
      MemoryPercent := { val := 4, err := false } },
    okProcess 6 "f" 0.5 5, okProcess 7 "g" 88 6, okProcess 8 "h" 20 7 ]

/-- What `getProcess` returns on `sevenQualifying`: the five highest CPU percents, the two
entries at 30 in enumeration order. -/
def sevenQualifyingTop : List ProcessInfo :=
  [ { Pid := 7, Name := "g", CPU := 88, Memory := 6, CommandLine := "/usr/bin/app" },
    { Pid := 2, Name := "b", CPU := 70.5, Memory := 2, CommandLine := "/usr/bin/app" },
    { Pid := 3, Name := "c", CPU := 30, Memory := 3, CommandLine := "" },
    { Pid := 5, Name := "", CPU := 30, Memory := 4, CommandLine := "/usr/bin/app" },
    { Pid := 8, Name := "h", CPU := 20, Memory := 7, CommandLine := "/usr/bin/app" } ]

/-- The blocks the process loop appends when it starts at index `i`. -/
def lineBlocks : Nat → List ProcessInfo → List Block
  | _, [] => []
  | i, p :: rest => mrkdwnSection (processLine (i + 1) p) :: lineBlocks (i + 1) rest

/-- A snapshot with the given CPU usage and process list. -/
def exampleMetrics (cpu : ℚ) (processes : List ProcessInfo) : Metrics :=
  { TID := "", CID := "", Key := "", Timestamp := "2024-01-01T00:00:00Z",
    CPUUsage := cpu, MemoryUsed := 2048, MemoryTotal := 8192, DiskUsed := 10,
    DiskTotal := 100, Processes := processes }

/-- The two-process list `chrome`, `node`. -/
def chromeAndNode : List ProcessInfo :=
  [ { Pid := 10, Name := "chrome", CPU := 55.12, Memory := 30.44, CommandLine := "chrome" },
    { Pid := 11, Name := "node", CPU := 20, Memory := 5.5, CommandLine := "node app.js" } ]

/-- The same two processes seen with other pids and command lines. -/
def chromeAndNodeAgain : List ProcessInfo :=
  [ { Pid := 77, Name := "chrome", CPU := 55.12, Memory := 30.44, CommandLine := "" },
    { Pid := 78, Name := "node", CPU := 20, Memory := 5.5, CommandLine := "node" } ]

/-- An example configuration with threshold 80. -/
def exampleConfig : Config :=
  { cid := "cluster-1", max := 80, webhookUrl := "https://hooks.example/T000" }

/-- The host of the eight-process example with `raw` as the aggregate CPU percent. -/
def cpuHost (raw : ℚ) : Host :=
  { exampleHost sevenQualifying with cpuPercent := { val := [raw], err := false } }

/-- The reading of the specification: `x` rounded to one decimal place, halves away from
zero, as a real number. -/
def exactRoundTenth (x : ℚ) : ℚ := (roundHalfAway (x * 10) : ℚ) / 10

/-- The capacities the gc growth rule reaches from the nil slice while at most four
elements have been appended. -/
def SmallShape (s : Slice ProcessInfo) : Prop :=
  s.items.length ≤ s.cap ∧ (s.cap = 0 ∨ s.cap = 1 ∨ s.cap = 2 ∨ s.cap = 4)

/-! ## Lemmas on slices and on the collecting loop -/

theorem Slice.append_items {α : Type} (g : Nat → Nat → Nat) (s : Slice α) (x : α) :
    (s.append g x).items = s.items ++ [x] := by
  unfold Slice.append
  split <;> rfl

theorem Slice.append_le_cap {α : Type} (g : Nat → Nat → Nat) (hg : GrowContract g)
    (s : Slice α) (x : α) : (s.append g x).items.length ≤ (s.append g x).cap := by
  unfold Slice.append
  split
  · simpa using (by assumption : s.items.length + 1 ≤ s.cap)
  · simpa using hg s.cap (s.items.length + 1)

theorem collect_items (g : Nat → Nat → Nat) (ps : List Process) (acc : Slice ProcessInfo) :
    (getProcess.collect g ps acc).items = acc.items ++ (qualifying ps).map candidateOf := by
  induction ps generalizing acc with
  | nil => simp [getProcess.collect, qualifying]
  | cons p rest ih =>
    unfold getProcess.collect
    by_cases hc : p.CPUPercent.err = true
    · simp [hc, ih, qualifying, qualifies]
    · by_cases hm : p.MemoryPercent.err = true
      · simp [hc, hm, ih, qualifying, qualifies]
      · simp [hc, hm, ih, qualifying, qualifies, Slice.append_items, candidateOf]

theorem collect_le_cap (g : Nat → Nat → Nat) (hg : GrowContract g) (ps : List Process)
    (acc : Slice ProcessInfo) (hacc : acc.items.length ≤ acc.cap) :
    (getProcess.collect g ps acc).items.length ≤ (getProcess.collect g ps acc).cap := by
  induction ps generalizing acc with
  | nil => simpa [getProcess.collect] using hacc
  | cons p rest ih =>
    unfold getProcess.collect
    by_cases hc : p.CPUPercent.err = true
    · simpa [hc] using ih acc hacc
    · by_cases hm : p.MemoryPercent.err = true
      · simpa [hc, hm] using ih acc hacc
      · simpa [hc, hm] using ih _ (Slice.append_le_cap g hg acc _)

theorem append_smallShape (g : Nat → Nat → Nat) (hg : GcGrowth g) (s : Slice ProcessInfo)
    (x : ProcessInfo) (hs : SmallShape s) (hlen : s.items.length + 1 ≤ 4) :
    SmallShape (s.append g x) := by
  obtain ⟨h1, h2⟩ := hs
  unfold Slice.append SmallShape
  split
  · simp only [List.length_append, List.length_singleton]
    exact ⟨by assumption, h2⟩
  · simp only [List.length_append, List.length_singleton]
    rw [hg s.cap _ (by omega)]
    unfold gcGrowCap
    split_ifs <;> omega

theorem collect_length_ge (g : Nat → Nat → Nat) (ps : List Process)
    (acc : Slice ProcessInfo) :
    acc.items.length ≤ (getProcess.collect g ps acc).items.length := by
  rw [collect_items]; simp

theorem collect_smallShape (g : Nat → Nat → Nat) (hg : GcGrowth g) (ps : List Process)
    (acc : Slice ProcessInfo) (hacc : SmallShape acc)
    (hlen : (getProcess.collect g ps acc).items.length ≤ 4) :
    SmallShape (getProcess.collect g ps acc) := by
  induction ps generalizing acc with
  | nil => simpa [getProcess.collect] using hacc
  | cons p rest ih =>
    unfold getProcess.collect at hlen ⊢
    cases hc : p.CPUPercent.err with
    | true =>
      simp only [hc, if_true] at hlen ⊢
      exact ih acc hacc hlen
    | false =>
      cases hm : p.MemoryPercent.err with
      | true =>
        simp only [hc, hm, if_true, Bool.false_eq_true, if_false] at hlen ⊢
        exact ih acc hacc hlen
      | false =>
        simp only [hc, hm, Bool.false_eq_true, if_false] at hlen ⊢
        refine ih _ (append_smallShape g hg acc _ hacc ?_) hlen
        have h := collect_length_ge g rest (acc.append g
          { Pid := p.Pid, Name := p.Name.val, CPU := p.CPUPercent.val,
            Memory := p.MemoryPercent.val, CommandLine := "" })
        rw [Slice.append_items] at h
        simp only [List.length_append, List.length_singleton] at h
        omega

theorem ranked_cap (rt : Runtime) (cmdline : Int → GoResult String) (ps : List Process) :
    (getProcess.ranked rt cmdline ps).cap = (getProcess.collect rt.growCap ps Slice.nil).cap :=
  rfl

theorem ranked_items (rt : Runtime) (cmdline : Int → GoResult String) (ps : List Process) :
    (getProcess.ranked rt cmdline ps).items
      = getProcess.fillCommandLines cmdline
          (rt.sortSlice cpuLess ((qualifying ps).map candidateOf)) := by
  simp [getProcess.ranked, collect_items, Slice.nil]

theorem sliceTo_ok_length {α : Type} (zero : α) (s t : Slice α) (n : Nat)
    (h : s.sliceTo zero n = Outcome.ok t) : t.items.length = n := by
  unfold Slice.sliceTo at h
  split at h
  · cases h
    simp only [List.length_take, List.length_append, List.length_replicate]
    omega
  · cases h

theorem fillCommandLines_length (cmdline : Int → GoResult String) (l : List ProcessInfo) :
    (getProcess.fillCommandLines cmdline l).length = l.length := by
  simp [getProcess.fillCommandLines]

theorem fillCommandLines_core (cmdline : Int → GoResult String) (l : List ProcessInfo) :
    (getProcess.fillCommandLines cmdline l).map ProcessInfo.core = l.map ProcessInfo.core := by
  simp [getProcess.fillCommandLines, ProcessInfo.core, Function.comp_def]

theorem candidate_core (ps : List Process) :
    (ps.map candidateOf).map ProcessInfo.core
      = ps.map fun p => (p.Pid, p.Name.val, p.CPUPercent.val, p.MemoryPercent.val) := by
  simp [candidateOf, ProcessInfo.core, Function.comp_def]

theorem nil_items : (Slice.nil : Slice ProcessInfo).items = [] := rfl

/-- With the gc growth rule and fewer than five qualifying processes, the capacity of the
ranked slice is below 5 and `processList[:5]` panics. -/
theorem getProcess_panics_of_few (rt : Runtime) (host : Host)
    (hgc : GcGrowth rt.growCap) (herr : host.processes.err = false)
    (hN : (qualifying host.processes.val).length < 5) :
    ∃ msg, getProcess rt host = Outcome.panic msg := by
  have hshape : SmallShape (getProcess.collect rt.growCap host.processes.val Slice.nil) := by
    apply collect_smallShape _ hgc
    · exact ⟨by simp [Slice.nil], Or.inl rfl⟩
    · rw [collect_items, nil_items, List.nil_append, List.length_map]
      omega
  have hcap : ¬ 5 ≤ (getProcess.ranked rt host.cmdline host.processes.val).cap := by
    rw [ranked_cap]
    obtain ⟨_, h | h | h | h⟩ := hshape <;> omega
  unfold getProcess
  simp only [herr, Bool.false_eq_true, if_false, Slice.sliceTo, hcap]
  exact ⟨_, rfl⟩

/-- Whatever the runtime, a list returned after a successful enumeration has five
entries. -/
theorem getProcess_ok_length (rt : Runtime) (host : Host)
    (herr : host.processes.err = false) (l : List ProcessInfo)
    (h : getProcess rt host = Outcome.ok l) : l.length = 5 := by
  unfold getProcess at h
  simp only [herr, Bool.false_eq_true, if_false] at h
  cases hs : (getProcess.ranked rt host.cmdline host.processes.val).sliceTo ProcessInfo.zero 5 with
  | ok t =>
    rw [hs] at h
    cases h
    exact sliceTo_ok_length _ _ _ _ hs
  | panic msg =>
    rw [hs] at h
    cases h

/-- With the library contracts and at least five qualifying processes, `getProcess`
returns the first five elements of the sorted candidates, command lines filled in. -/
theorem getProcess_eq_take (rt : Runtime) (host : Host)
    (hg : GrowContract rt.growCap) (hs : SortContract rt.sortSlice cpuLess)
    (herr : host.processes.err = false)
    (hN : 5 ≤ (qualifying host.processes.val).length) :
    getProcess rt host = Outcome.ok
      ((getProcess.fillCommandLines host.cmdline
        (rt.sortSlice cpuLess ((qualifying host.processes.val).map candidateOf))).take 5) := by
  have hlen : (getProcess.ranked rt host.cmdline host.processes.val).items.length
      = (qualifying host.processes.val).length := by
    rw [ranked_items, fillCommandLines_length, (hs _).1.length_eq, List.length_map]
  have hcol := collect_le_cap rt.growCap hg host.processes.val Slice.nil (by simp [Slice.nil])
  rw [collect_items, nil_items, List.nil_append, List.length_map] at hcol
  have hcap : 5 ≤ (getProcess.ranked rt host.cmdline host.processes.val).cap := by
    rw [ranked_cap]; omega
  unfold getProcess
  simp only [herr, Bool.false_eq_true, if_false, Slice.sliceTo, hcap, if_true]
  rw [List.take_append_of_le_length (by omega), ranked_items]

/-- The sorted candidates are in non-increasing order of CPU percent. -/
theorem sorted_of_contract (rt : Runtime) (hs : SortContract rt.sortSlice cpuLess)
    (l : List ProcessInfo) :
    (rt.sortSlice cpuLess l).Pairwise (fun a b => b.CPU ≤ a.CPU) := by
  refine (hs l).2.imp ?_
  intro a b h
  simpa [cpuLess] using h

theorem fillCommandLines_pairwise (cmdline : Int → GoResult String) (l : List ProcessInfo)
    (h : l.Pairwise (fun a b => b.CPU ≤ a.CPU)) :
    (getProcess.fillCommandLines cmdline l).Pairwise (fun a b => b.CPU ≤ a.CPU) := by
  unfold getProcess.fillCommandLines
  rw [List.pairwise_map]
  exact h

theorem insertionSortSlice_contract : SortContract insertionSortSlice cpuLess := by
  intro l
  refine ⟨List.perm_insertionSort _ l, ?_⟩
  have htot : IsTotal ProcessInfo (fun a b => cpuLess b a = false) :=
    ⟨fun a b => by
      simp only [cpuLess, gt_iff_lt, decide_eq_false_iff_not, not_lt]
      exact le_total _ _⟩
  have htrans : IsTrans ProcessInfo (fun a b => cpuLess b a = false) :=
    ⟨fun a b c => by
      simp only [cpuLess, gt_iff_lt, decide_eq_false_iff_not, not_lt]
      exact fun h1 h2 => le_trans h2 h1⟩
  exact List.sorted_insertionSort _ l

theorem gcGrowCap_contract : GrowContract gcGrowCap := by
  intro c n
  unfold gcGrowCap
  split_ifs <;> omega

theorem gcGrowCap_gcGrowth : GcGrowth gcGrowCap := fun _ _ _ => rfl

/-- The program run on the eight-process example. -/
theorem getProcess_sevenQualifying :
    getProcess exampleRuntime (exampleHost sevenQualifying) = Outcome.ok sevenQualifyingTop := by
  decide!

/-! ## The ranking returned by `getProcess` -/

/-- C1 (the code does not do this). After a successful enumeration that leaves fewer than
five qualifying processes, `getProcess` never returns a list of that many entries: a
list it returns has exactly five entries, and under the growth rule of the gc runtime
it returns nothing at all, because `processList[:5]` panics. -/
theorem getProcess_fewer_than_five (rt : Runtime) (host : Host)
    (herr : host.processes.err = false)
    (hN : (qualifying host.processes.val).length < 5) :
    (∀ l, getProcess rt host = Outcome.ok l → l.length = 5) ∧
    (GcGrowth rt.growCap → ∃ msg, getProcess rt host = Outcome.panic msg) :=
  ⟨fun l h => getProcess_ok_length rt host herr l h,
   fun hgc => getProcess_panics_of_few rt host hgc herr hN⟩

theorem getProcess_fewer_than_five_witness :
    (qualifying (exampleHost twoQualifying).processes.val).length = 2 ∧
    ((∀ l, getProcess exampleRuntime (exampleHost twoQualifying) = Outcome.ok l
        → l.length = 5) ∧
      (GcGrowth exampleRuntime.growCap →
        ∃ msg, getProcess exampleRuntime (exampleHost twoQualifying) = Outcome.panic msg)) ∧
    getProcess exampleRuntime (exampleHost twoQualifying)
      = Outcome.panic "runtime error: slice bounds out of range [:5] with capacity 2" ∧
    getProcess exampleRuntime (exampleHost [])
      = Outcome.panic "runtime error: slice bounds out of range [:5] with capacity 0" :=
  ⟨by decide,
   getProcess_fewer_than_five exampleRuntime (exampleHost twoQualifying) rfl (by decide),
   by decide!, by decide!⟩

/-- C2. After a successful enumeration that leaves at least five qualifying processes,
and with `append` and `sort.Slice` meeting their contracts, `getProcess` returns a list
of exactly five entries in which no entry has a smaller CPU percent than an entry
after it (ties allowed). -/
theorem getProcess_five_sorted (rt : Runtime) (host : Host)
    (hg : GrowContract rt.growCap) (hs : SortContract rt.sortSlice cpuLess)
    (herr : host.processes.err = false)
    (hN : 5 ≤ (qualifying host.processes.val).length) :
    ∃ l, getProcess rt host = Outcome.ok l ∧ l.length = 5 ∧
      l.Pairwise (fun a b => a.CPU ≥ b.CPU) := by
  refine ⟨_, getProcess_eq_take rt host hg hs herr hN, ?_, ?_⟩
  · rw [List.length_take, fillCommandLines_length, (hs _).1.length_eq, List.length_map]
    omega
  · exact (fillCommandLines_pairwise _ _ (sorted_of_contract rt hs _)).sublist
      (List.take_sublist _ _)

theorem getProcess_five_sorted_witness :
    5 ≤ (qualifying (exampleHost sevenQualifying).processes.val).length ∧
    (∃ l, getProcess exampleRuntime (exampleHost sevenQualifying) = Outcome.ok l ∧
      l.length = 5 ∧ l.Pairwise (fun a b => a.CPU ≥ b.CPU)) ∧
    getProcess exampleRuntime (exampleHost sevenQualifying) = Outcome.ok sevenQualifyingTop :=
  ⟨by decide,
   getProcess_five_sorted exampleRuntime (exampleHost sevenQualifying) gcGrowCap_contract
     insertionSortSlice_contract rfl (by decide),
   getProcess_sevenQualifying⟩

/-- C3. After a successful enumeration that leaves at least five qualifying processes,
and with `append` and `sort.Slice` meeting their contracts, the five returned entries
are the top of the ranking: their pid, name, CPU percent and memory percent, together
with those of a remainder `rest`, are a rearrangement of the qualifying processes (so
each returned entry stands for a qualifying process of its own), and every process of
the remainder has a CPU percent at most that of every returned entry. -/
theorem getProcess_top_five (rt : Runtime) (host : Host)
    (hg : GrowContract rt.growCap) (hs : SortContract rt.sortSlice cpuLess)
    (herr : host.processes.err = false)
    (hN : 5 ≤ (qualifying host.processes.val).length) :
    ∃ (l : List ProcessInfo) (rest : List (Int × String × ℚ × ℚ)),
      getProcess rt host = Outcome.ok l ∧ l.length = 5 ∧
      (l.map ProcessInfo.core ++ rest).Perm
        ((qualifying host.processes.val).map fun p =>
          (p.Pid, p.Name.val, p.CPUPercent.val, p.MemoryPercent.val)) ∧
      ∀ x ∈ rest, ∀ y ∈ l, x.2.2.1 ≤ y.CPU := by
  refine ⟨_, ((getProcess.fillCommandLines host.cmdline
      (rt.sortSlice cpuLess ((qualifying host.processes.val).map candidateOf))).drop 5).map
        ProcessInfo.core, getProcess_eq_take rt host hg hs herr hN, ?_, ?_, ?_⟩
  · rw [List.length_take, fillCommandLines_length, (hs _).1.length_eq, List.length_map]
    omega
  · rw [← List.map_append, List.take_append_drop, fillCommandLines_core, ← candidate_core]
    exact (hs _).1.map _
  · intro x hx y hy
    obtain ⟨e, he, rfl⟩ := List.mem_map.1 hx
    exact (fillCommandLines_pairwise host.cmdline _
      (sorted_of_contract rt hs _)).rel_of_mem_take_of_mem_drop hy he

theorem getProcess_top_five_witness :
    5 ≤ (qualifying (exampleHost sevenQualifying).processes.val).length ∧
    ∃ (l : List ProcessInfo) (rest : List (Int × String × ℚ × ℚ)),
      getProcess exampleRuntime (exampleHost sevenQualifying) = Outcome.ok l ∧ l.length = 5 ∧
      (l.map ProcessInfo.core ++ rest).Perm
        ((qualifying (exampleHost sevenQualifying).processes.val).map fun p =>
          (p.Pid, p.Name.val, p.CPUPercent.val, p.MemoryPercent.val)) ∧
      ∀ x ∈ rest, ∀ y ∈ l, x.2.2.1 ≤ y.CPU :=
  ⟨by decide,
   getProcess_top_five exampleRuntime (exampleHost sevenQualifying) gcGrowCap_contract
     insertionSortSlice_contract rfl (by decide)⟩

theorem collect_filter (g : Nat → Nat → Nat) (ps : List Process) (acc : Slice ProcessInfo) :
    getProcess.collect g (qualifying ps) acc = getProcess.collect g ps acc := by
  induction ps generalizing acc with
  | nil => rfl
  | cons p rest ih =>
    cases hc : p.CPUPercent.err with
    | true =>
      have hq : qualifying (p :: rest) = qualifying rest := by
        simp [qualifying, qualifies, hc]
      rw [hq, ih]
      simp [getProcess.collect, hc]
    | false =>
      cases hm : p.MemoryPercent.err with
      | true =>
        have hq : qualifying (p :: rest) = qualifying rest := by
          simp [qualifying, qualifies, hm]
        rw [hq, ih]
        simp [getProcess.collect, hc, hm]
      | false =>
        have hq : qualifying (p :: rest) = p :: qualifying rest := by
          simp [qualifying, qualifies, hc, hm]
        rw [hq]
        simp only [getProcess.collect, hc, hm, Bool.false_eq_true, if_false]
        exact ih _

/-- C7. The list `getProcess` ranks holds exactly the processes whose CPU-percent and
memory-percent lookups both succeeded, in enumeration order, each entry built from the
lookups of its own process only; taking the other processes out of the enumeration
changes nothing. A qualifying process whose name lookup fails (the library then
returns the empty string) is kept with the empty name, and the command-line loop keeps
every entry and its pid, name and percentages, leaving the empty command line where
the lookup fails. -/
theorem getProcess_candidates (rt : Runtime) (cmdline : Int → GoResult String)
    (ps : List Process)
    (hName : ∀ p ∈ ps, p.Name.err = true → p.Name.val = "")
    (hCmd : ∀ pid, (cmdline pid).err = true → (cmdline pid).val = "") :
    (getProcess.collect rt.growCap ps Slice.nil).items
      = ((ps.filter fun p => !p.CPUPercent.err && !p.MemoryPercent.err).map fun p =>
          { Pid := p.Pid, Name := p.Name.val, CPU := p.CPUPercent.val,
            Memory := p.MemoryPercent.val, CommandLine := "" }) ∧
    getProcess.collect rt.growCap
        (ps.filter fun p => !p.CPUPercent.err && !p.MemoryPercent.err) Slice.nil
      = getProcess.collect rt.growCap ps Slice.nil ∧
    (∀ p ∈ ps, p.CPUPercent.err = false → p.MemoryPercent.err = false →
      p.Name.err = true →
      ({ Pid := p.Pid, Name := "", CPU := p.CPUPercent.val,
         Memory := p.MemoryPercent.val, CommandLine := "" } : ProcessInfo)
        ∈ (getProcess.collect rt.growCap ps Slice.nil).items) ∧
    (getProcess.ranked rt cmdline ps).items.map ProcessInfo.core
      = (rt.sortSlice cpuLess (getProcess.collect rt.growCap ps Slice.nil).items).map
          ProcessInfo.core ∧
    (∀ e ∈ (getProcess.ranked rt cmdline ps).items,
      (cmdline e.Pid).err = true → e.CommandLine = "") := by
  refine ⟨?_, ?_, ?_, ?_, ?_⟩
  · rw [collect_items, nil_items, List.nil_append]
    rfl
  · exact collect_filter rt.growCap ps Slice.nil
  · intro p hp hc hm hn
    rw [collect_items, nil_items, List.nil_append]
    refine List.mem_map.2 ⟨p, ?_, ?_⟩
    · simp [qualifying, qualifies, hp, hc, hm]
    · simp [candidateOf, hName p hp hn]
  · rw [ranked_items, fillCommandLines_core, collect_items, nil_items, List.nil_append]
  · intro e he herr
    rw [ranked_items] at he
    unfold getProcess.fillCommandLines at he
    obtain ⟨e0, _, rfl⟩ := List.mem_map.1 he
    exact hCmd _ herr

theorem getProcess_candidates_witness :
    (getProcess.collect exampleRuntime.growCap sevenQualifying Slice.nil).items
      = [ { Pid := 1, Name := "a", CPU := 10, Memory := 1, CommandLine := "" },
          { Pid := 2, Name := "b", CPU := 70.5, Memory := 2, CommandLine := "" },
          { Pid := 3, Name := "c", CPU := 30, Memory := 3, CommandLine := "" },
          { Pid := 5, Name := "", CPU := 30, Memory := 4, CommandLine := "" },
          { Pid := 6, Name := "f", CPU := 0.5, Memory := 5, CommandLine := "" },
          { Pid := 7, Name := "g", CPU := 88, Memory := 6, CommandLine := "" },
          { Pid := 8, Name := "h", CPU := 20, Memory := 7, CommandLine := "" } ] ∧
    (∀ e ∈ (getProcess.ranked exampleRuntime (exampleHost sevenQualifying).cmdline
        sevenQualifying).items,
      ((exampleHost sevenQualifying).cmdline e.Pid).err = true → e.CommandLine = "") :=
  have h := getProcess_candidates exampleRuntime (exampleHost sevenQualifying).cmdline
    sevenQualifying (by decide)
    (by intro pid; simp only [exampleHost]; split_ifs <;> simp)
  ⟨h.1.trans (by decide!), h.2.2.2.2⟩

/-! ## `collectMetrics` -/

/-- C6 (the code does not do this). With the CPU, memory and disk calls succeeding,
`collectMetrics` returns a snapshot with an empty process list when the enumeration
reports an error, but when the enumeration succeeds with fewer than five qualifying
processes it panics under the gc growth rule: the panic of `processList[:5]` in
`getProcess` is not recovered. -/
theorem collectMetrics_few_processes (rt : Runtime) (host : Host)
    (hcpu : host.cpuPercent.err = false) (hval : host.cpuPercent.val ≠ [])
    (hmem : host.virtualMemory.err = false) (hdisk : host.diskUsage.err = false) :
    (host.processes.err = true →
      ∃ m, collectMetrics rt host = Outcome.ok m ∧ m.Processes = []) ∧
    (host.processes.err = false → (qualifying host.processes.val).length < 5 →
      GcGrowth rt.growCap → ∃ msg, collectMetrics rt host = Outcome.panic msg) := by
  obtain ⟨c, tl, hc⟩ := List.exists_cons_of_ne_nil hval
  constructor
  · intro herr
    have hg : getProcess rt host = Outcome.ok [] := by simp [getProcess, herr]
    unfold collectMetrics
    simp only [hcpu, hc, hmem, hdisk, hg, Bool.false_eq_true, if_false]
    exact ⟨_, rfl, rfl⟩
  · intro herr hN hgc
    obtain ⟨msg, hp⟩ := getProcess_panics_of_few rt host hgc herr hN
    unfold collectMetrics
    simp only [hcpu, hc, hmem, hdisk, hp, Bool.false_eq_true, if_false]
    exact ⟨_, rfl⟩

theorem collectMetrics_few_processes_witness :
    (exampleHost twoQualifying).cpuPercent.err = false ∧
    (exampleHost twoQualifying).virtualMemory.err = false ∧
    (exampleHost twoQualifying).diskUsage.err = false ∧
    (exampleHost twoQualifying).processes.err = false ∧
    (∃ msg, collectMetrics exampleRuntime (exampleHost twoQualifying) = Outcome.panic msg) ∧
    collectMetrics exampleRuntime (exampleHost twoQualifying)
      = Outcome.panic "runtime error: slice bounds out of range [:5] with capacity 2" :=
  ⟨rfl, rfl, rfl, rfl,
   (collectMetrics_few_processes exampleRuntime (exampleHost twoQualifying) rfl
      (by decide) rfl rfl).2 rfl (by decide) gcGrowCap_gcGrowth,
   by decide!⟩

/-- The snapshot `collectMetrics` assembles when every call before line 99 succeeds. -/
theorem collectMetrics_eq (rt : Runtime) (host : Host) (c : ℚ) (tl : List ℚ)
    (processList : List ProcessInfo)
    (hcpu : host.cpuPercent.err = false) (hc : host.cpuPercent.val = c :: tl)
    (hmem : host.virtualMemory.err = false) (hdisk : host.diskUsage.err = false)
    (hproc : getProcess rt host = Outcome.ok processList) :
    collectMetrics rt host = Outcome.ok
      { TID := "", CID := "", Key := "",
        Timestamp := host.now,
        CPUUsage := float64 (mathRound (float64 (c * 10)) / 10),
        MemoryUsed := host.virtualMemory.val.Used / 1024 / 1024,
        MemoryTotal := host.virtualMemory.val.Total / 1024 / 1024,
        DiskUsed := host.diskUsage.val.Used / 1024 / 1024 / 1024,
        DiskTotal := host.diskUsage.val.Total / 1024 / 1024 / 1024,
        Processes := processList } := by
  unfold collectMetrics
  simp only [hcpu, hc, hmem, hdisk, hproc, Bool.false_eq_true, if_false]

/-- C9. Whenever the CPU, memory and disk calls succeed and `getProcess` returns, the
snapshot `collectMetrics` returns has `MemoryUsed` and `MemoryTotal` equal to the byte
counts divided by 1024*1024 and `DiskUsed` and `DiskTotal` equal to the byte counts
divided by 1024*1024*1024, each the floor of the quotient (never rounded up). -/
theorem collectMetrics_sizes (rt : Runtime) (host : Host) (processList : List ProcessInfo)
    (hcpu : host.cpuPercent.err = false) (hval : host.cpuPercent.val ≠ [])
    (hmem : host.virtualMemory.err = false) (hdisk : host.diskUsage.err = false)
    (hproc : getProcess rt host = Outcome.ok processList) :
    ∃ m, collectMetrics rt host = Outcome.ok m ∧
      m.MemoryUsed = host.virtualMemory.val.Used / (1024 * 1024) ∧
      m.MemoryTotal = host.virtualMemory.val.Total / (1024 * 1024) ∧
      m.DiskUsed = host.diskUsage.val.Used / (1024 * 1024 * 1024) ∧
      m.DiskTotal = host.diskUsage.val.Total / (1024 * 1024 * 1024) ∧
      (m.MemoryUsed * 2 ^ 20 ≤ host.virtualMemory.val.Used ∧
        host.virtualMemory.val.Used < (m.MemoryUsed + 1) * 2 ^ 20) ∧
      (m.MemoryTotal * 2 ^ 20 ≤ host.virtualMemory.val.Total ∧
        host.virtualMemory.val.Total < (m.MemoryTotal + 1) * 2 ^ 20) ∧
      (m.DiskUsed * 2 ^ 30 ≤ host.diskUsage.val.Used ∧
        host.diskUsage.val.Used < (m.DiskUsed + 1) * 2 ^ 30) ∧
      (m.DiskTotal * 2 ^ 30 ≤ host.diskUsage.val.Total ∧
        host.diskUsage.val.Total < (m.DiskTotal + 1) * 2 ^ 30) := by
  obtain ⟨c, tl, hc⟩ := List.exists_cons_of_ne_nil hval
  refine ⟨_, collectMetrics_eq rt host c tl processList hcpu hc hmem hdisk hproc, ?_⟩
  dsimp only
  simp only [Nat.div_div_eq_div_mul]
  refine ⟨trivial, trivial, trivial, trivial, ⟨?_, ?_⟩, ⟨?_, ?_⟩, ⟨?_, ?_⟩, ⟨?_, ?_⟩⟩ <;> omega

theorem collectMetrics_sizes_witness :
    (∃ m, collectMetrics exampleRuntime (exampleHost sevenQualifying) = Outcome.ok m ∧
      m.MemoryUsed = 2147483648 / (1024 * 1024) ∧
      m.MemoryTotal = 8589934592 / (1024 * 1024) ∧
      m.DiskUsed = 10737418240 / (1024 * 1024 * 1024) ∧
      m.DiskTotal = 107374182400 / (1024 * 1024 * 1024) ∧
      (m.MemoryUsed * 2 ^ 20 ≤ 2147483648 ∧ 2147483648 < (m.MemoryUsed + 1) * 2 ^ 20) ∧
      (m.MemoryTotal * 2 ^ 20 ≤ 8589934592 ∧ 8589934592 < (m.MemoryTotal + 1) * 2 ^ 20) ∧
      (m.DiskUsed * 2 ^ 30 ≤ 10737418240 ∧ 10737418240 < (m.DiskUsed + 1) * 2 ^ 30) ∧
      (m.DiskTotal * 2 ^ 30 ≤ 107374182400 ∧
        107374182400 < (m.DiskTotal + 1) * 2 ^ 30)) ∧
    (2147483648 / (1024 * 1024) = 2048 ∧ 10737418240 / (1024 * 1024 * 1024) = 10) :=
  ⟨collectMetrics_sizes exampleRuntime (exampleHost sevenQualifying) _ rfl (by decide) rfl rfl
     getProcess_sevenQualifying,
   by decide⟩

/-! ## The rounding of the CPU usage (line 83) -/

theorem bitLen_spec (fuel n : Nat) (hn : 0 < n) (hf : n ≤ fuel) :
    ∃ k, bitLen fuel n = k + 1 ∧ 2 ^ k ≤ n ∧ n < 2 ^ (k + 1) := by
  induction fuel generalizing n with
  | zero => omega
  | succ fuel ih =>
    unfold bitLen
    have hn0 : n ≠ 0 := by omega
    simp only [hn0, if_false]
    by_cases h2 : n / 2 = 0
    · refine ⟨0, ?_, ?_, ?_⟩
      · rw [h2]
        cases fuel <;> simp [bitLen]
      · simpa using hn
      · simp; omega
    · obtain ⟨k, hk, hlo, hhi⟩ := ih (n / 2) (by omega) (by omega)
      refine ⟨k + 1, by rw [hk], ?_, ?_⟩
      · rw [pow_succ]; omega
      · rw [pow_succ] at hhi ⊢; omega

theorem binExp_spec (x : ℚ) (hx : 0 < x) :
    (2 : ℚ) ^ binExp x ≤ x ∧ x < (2 : ℚ) ^ (binExp x + 1) := by
  have hnum : 0 < x.num := Rat.num_pos.2 hx
  obtain ⟨a, ha, halo, hahi⟩ := bitLen_spec x.num.natAbs x.num.natAbs (by omega) le_rfl
  obtain ⟨b, hb, hblo, hbhi⟩ := bitLen_spec x.den x.den x.den_pos le_rfl
  have hxe : x = (x.num.natAbs : ℚ) / (x.den : ℚ) := by
    have h1 : (x.num.natAbs : ℚ) = (x.num : ℚ) := by
      rw [Nat.cast_natAbs, abs_of_pos hnum]
    rw [h1]
    exact (Rat.num_div_den x).symm
  have hq : (0 : ℚ) < (x.den : ℚ) := by exact_mod_cast x.den_pos
  have he0 : ((bitLen x.num.natAbs x.num.natAbs : ℤ) - (bitLen x.den x.den : ℤ)) = (a : ℤ) - b := by
    rw [ha, hb]; push_cast; ring
  have h2 : (0 : ℚ) < 2 := by norm_num
  have e1 : (2 : ℚ) ^ ((a : ℤ) - b - 1) = (2 : ℚ) ^ a / (2 : ℚ) ^ (b + 1) := by
    rw [show ((a : ℤ) - b - 1) = (a : ℤ) - ((b + 1 : ℕ) : ℤ) by push_cast; ring,
      zpow_sub₀ h2.ne', zpow_natCast, zpow_natCast]
  have e2 : (2 : ℚ) ^ ((a : ℤ) - b + 1) = (2 : ℚ) ^ (a + 1) / (2 : ℚ) ^ b := by
    rw [show ((a : ℤ) - b + 1) = ((a + 1 : ℕ) : ℤ) - (b : ℤ) by push_cast; ring,
      zpow_sub₀ h2.ne', zpow_natCast, zpow_natCast]
  have hp1 : ((2 : ℚ) ^ a) ≤ (x.num.natAbs : ℚ) := by exact_mod_cast halo
  have hp2 : (x.num.natAbs : ℚ) < (2 : ℚ) ^ (a + 1) := by exact_mod_cast hahi
  have hq1 : ((2 : ℚ) ^ b) ≤ (x.den : ℚ) := by exact_mod_cast hblo
  have hq2 : (x.den : ℚ) < (2 : ℚ) ^ (b + 1) := by exact_mod_cast hbhi
  unfold binExp
  simp only [he0]
  split
  · rename_i hlt
    refine ⟨?_, by simpa using hlt⟩
    rw [e1]
    conv_rhs => rw [hxe]
    rw [div_le_div_iff₀ (by positivity) hq]
    nlinarith [pow_pos h2 a, pow_pos h2 (b + 1)]
  · rename_i hge
    refine ⟨le_of_not_lt hge, ?_⟩
    rw [e2]
    conv_lhs => rw [hxe]
    rw [div_lt_div_iff₀ hq (by positivity)]
    nlinarith [pow_pos h2 (a + 1), pow_pos h2 b]

theorem roundHalfEven_err (q : ℚ) (hq : 0 ≤ q) : |(roundHalfEven q : ℚ) - q| ≤ 1 / 2 := by
  have hfl : (0 : ℤ) ≤ ⌊q⌋ := Int.floor_nonneg.2 hq
  have hf : ((⌊q⌋.toNat : ℕ) : ℚ) = (⌊q⌋ : ℚ) := by
    have : ((⌊q⌋.toNat : ℕ) : ℤ) = ⌊q⌋ := Int.toNat_of_nonneg hfl
    exact_mod_cast this
  have h1 : (⌊q⌋ : ℚ) ≤ q := Int.floor_le q
  have h2 : q < (⌊q⌋ : ℚ) + 1 := Int.lt_floor_add_one q
  unfold roundHalfEven
  simp only [hf]
  split_ifs with c1 c2 c3 <;> push_cast <;> rw [abs_le] <;> (try rw [hf]) <;>
    constructor <;> linarith

theorem roundHalfAway_err (q : ℚ) : |(roundHalfAway q : ℚ) - q| ≤ 1 / 2 := by
  unfold roundHalfAway
  split_ifs with h
  · have h1 := Int.floor_le (q + 1 / 2)
    have h2 := Int.lt_floor_add_one (q + 1 / 2)
    rw [abs_le]; constructor <;> linarith
  · have h1 := Int.floor_le (-q + 1 / 2)
    have h2 := Int.lt_floor_add_one (-q + 1 / 2)
    push_cast
    rw [abs_le]; constructor <;> linarith

theorem float64_err (y : ℚ) :
    |float64 y - y| ≤ |y| / 2 ^ 53 + 1 / 2 ^ 1075 := by
  have hpos : (0 : ℚ) ≤ |y| / 2 ^ 53 + 1 / 2 ^ 1075 := by positivity
  by_cases hy : y = 0
  · simp [float64, hy]
  have habs : 0 < |y| := abs_pos.2 hy
  have h2 : (0 : ℚ) < 2 := by norm_num
  set e := max (binExp |y|) (-1022) with he
  set ulp := (2 : ℚ) ^ (e - 52) with hulp
  have hulp_pos : 0 < ulp := zpow_pos h2 _
  have hn := roundHalfEven_err (|y| / ulp) (by positivity)
  -- the error before the sign is put back
  have hmag : abs ((roundHalfEven (|y| / ulp) : ℚ) * ulp - |y|) ≤ ulp / 2 := by
    have : (roundHalfEven (|y| / ulp) : ℚ) * ulp - |y|
        = ((roundHalfEven (|y| / ulp) : ℚ) - |y| / ulp) * ulp := by
      field_simp
    rw [this, abs_mul, abs_of_pos hulp_pos]
    calc _ ≤ 1 / 2 * ulp := mul_le_mul_of_nonneg_right hn hulp_pos.le
      _ = ulp / 2 := by ring
  have hbound : ulp / 2 ≤ |y| / 2 ^ 53 + 1 / 2 ^ 1075 := by
    have hsplit : ulp / 2 = (2 : ℚ) ^ e / 2 ^ 53 := by
      rw [hulp, zpow_sub₀ h2.ne']
      norm_num
      ring
    rw [hsplit]
    rcases le_total (binExp |y|) (-1022) with hle | hle
    · have : e = -1022 := by rw [he]; exact max_eq_right hle
      rw [this]
      have : (2 : ℚ) ^ (-1022 : ℤ) / 2 ^ 53 = 1 / 2 ^ 1075 := by
        rw [zpow_neg, show (1022 : ℤ) = ((1022 : ℕ) : ℤ) by norm_num, zpow_natCast]
        rw [inv_eq_one_div, div_div, ← pow_add]
      rw [this]
      have : (0 : ℚ) ≤ |y| / 2 ^ 53 := by positivity
      linarith
    · have : e = binExp |y| := by rw [he]; exact max_eq_left hle
      rw [this]
      have hb := (binExp_spec |y| habs).1
      have : (2 : ℚ) ^ binExp |y| / 2 ^ 53 ≤ |y| / 2 ^ 53 :=
        div_le_div_of_nonneg_right hb (by positivity)
      have : (0 : ℚ) ≤ 1 / 2 ^ 1075 := by positivity
      linarith
  have hval : float64 y = if y < 0 then -((roundHalfEven (|y| / ulp) : ℚ) * ulp)
      else (roundHalfEven (|y| / ulp) : ℚ) * ulp := by
    simp only [float64, hy, if_false]
  rw [hval]
  split_ifs with hneg
  · have : -((roundHalfEven (|y| / ulp) : ℚ) * ulp) - y
        = -((roundHalfEven (|y| / ulp) : ℚ) * ulp - |y|) := by
      rw [abs_of_neg hneg]; ring
    rw [this, abs_neg]
    exact hmag.trans hbound
  · have : (roundHalfEven (|y| / ulp) : ℚ) * ulp - y
        = (roundHalfEven (|y| / ulp) : ℚ) * ulp - |y| := by
      rw [abs_of_nonneg (le_of_not_lt hneg)]
    rw [this]
    exact hmag.trans hbound

theorem getProcess_cpuHost (raw : ℚ) :
    getProcess exampleRuntime (cpuHost raw) = Outcome.ok sevenQualifyingTop :=
  getProcess_sevenQualifying

theorem roundTenth_42_37 :
    float64 (mathRound (float64 (float64 42.37 * 10)) / 10) = float64 42.4 := by
  decide!

theorem roundTenth_42_34 :
    float64 (mathRound (float64 (float64 42.34 * 10)) / 10) = float64 42.3 := by
  decide!

/-- C10 (as amended). When `collectMetrics` returns, for a raw aggregate CPU percent `x`
whose tenfold stays in the binary64 range, `CPUUsage` is `math.Round(x*10) / 10`
computed in binary64: the float64 nearest to `k / 10`, where `k` is the integer
nearest (halves away from zero) to the float64 product `x*10`. The product does not
overflow, `k` lies within `1/2` plus the rounding error of the product of `10 x`, and
`CPUUsage` is the float64 nearest to `x` rounded to one decimal place whenever the
rounding of the product does not change its nearest integer. The float64 nearest
42.37 gives the float64 nearest 42.4, and the one nearest 42.34 the one nearest 42.3. -/
theorem collectMetrics_cpuUsage (rt : Runtime) (host : Host) (x : ℚ) (tl : List ℚ)
    (processList : List ProcessInfo)
    (hcpu : host.cpuPercent.err = false) (hval : host.cpuPercent.val = x :: tl)
    (hmem : host.virtualMemory.err = false) (hdisk : host.diskUsage.err = false)
    (hproc : getProcess rt host = Outcome.ok processList)
    (hrange : |x| * 10 < 2 ^ 1023) :
    ∃ (m : Metrics) (k : ℤ), collectMetrics rt host = Outcome.ok m ∧
      k = roundHalfAway (float64 (x * 10)) ∧
      m.CPUUsage = float64 ((k : ℚ) / 10) ∧
      |float64 (x * 10)| < 2 ^ 1024 ∧
      |(k : ℚ) - x * 10| ≤ 1 / 2 + (|x * 10| / 2 ^ 53 + 1 / 2 ^ 1075) ∧
      |m.CPUUsage - (k : ℚ) / 10| ≤ |(k : ℚ) / 10| / 2 ^ 53 + 1 / 2 ^ 1075 ∧
      (k = roundHalfAway (x * 10) → m.CPUUsage = float64 (exactRoundTenth x)) ∧
      (x = float64 42.37 → m.CPUUsage = float64 42.4) ∧
      (x = float64 42.34 → m.CPUUsage = float64 42.3) := by
  refine ⟨_, roundHalfAway (float64 (x * 10)),
    collectMetrics_eq rt host x tl processList hcpu hval hmem hdisk hproc, rfl, rfl,
    ?_, ?_, float64_err _, ?_, ?_, ?_⟩
  · have herr := float64_err (x * 10)
    have habs : |x * 10| = |x| * 10 := by rw [abs_mul]; norm_num
    have h1 : |float64 (x * 10)| ≤ |float64 (x * 10) - x * 10| + |x * 10| := by
      have := abs_add (float64 (x * 10) - x * 10) (x * 10)
      simpa using this
    have h2 : |x * 10| / 2 ^ 53 ≤ |x * 10| := by
      apply div_le_self (abs_nonneg _)
      norm_num
    have h3 : (1 : ℚ) / 2 ^ 1075 ≤ 1 := by
      rw [div_le_one (by positivity)]
      exact one_le_pow₀ (by norm_num)
    have h4 : (2 : ℚ) ^ 1024 = 2 * 2 ^ 1023 := by rw [← pow_succ']
    have h5 : (1 : ℚ) ≤ 2 ^ 1023 := one_le_pow₀ (by norm_num)
    rw [habs] at herr h1 h2
    rw [h4]
    by_cases hx0 : x = 0
    · simp [hx0, float64]
    · have hpos : 0 < |x| := abs_pos.2 hx0
      linarith
  · have h1 := roundHalfAway_err (float64 (x * 10))
    have h2 := float64_err (x * 10)
    have := abs_sub_le ((roundHalfAway (float64 (x * 10)) : ℚ)) (float64 (x * 10)) (x * 10)
    linarith
  · intro h
    show float64 ((roundHalfAway (float64 (x * 10)) : ℚ) / 10) = float64 (exactRoundTenth x)
    rw [h]
    rfl
  · intro h
    subst h
    exact roundTenth_42_37
  · intro h
    subst h
    exact roundTenth_42_34

theorem collectMetrics_cpuUsage_witness :
    |float64 42.37| * 10 < 2 ^ 1023 ∧
    ∃ (m : Metrics) (k : ℤ),
      collectMetrics exampleRuntime (cpuHost (float64 42.37)) = Outcome.ok m ∧
      k = roundHalfAway (float64 (float64 42.37 * 10)) ∧
      m.CPUUsage = float64 ((k : ℚ) / 10) ∧
      |float64 (float64 42.37 * 10)| < 2 ^ 1024 ∧
      |(k : ℚ) - float64 42.37 * 10| ≤ 1 / 2 + (|float64 42.37 * 10| / 2 ^ 53 + 1 / 2 ^ 1075) ∧
      |m.CPUUsage - (k : ℚ) / 10| ≤ |(k : ℚ) / 10| / 2 ^ 53 + 1 / 2 ^ 1075 ∧
      (k = roundHalfAway (float64 42.37 * 10) →
        m.CPUUsage = float64 (exactRoundTenth (float64 42.37))) ∧
      (float64 42.37 = float64 42.37 → m.CPUUsage = float64 42.4) ∧
      (float64 42.37 = float64 42.34 → m.CPUUsage = float64 42.3) :=
  ⟨by decide!,
   collectMetrics_cpuUsage exampleRuntime (cpuHost (float64 42.37)) (float64 42.37) []
     sevenQualifyingTop rfl rfl rfl rfl (getProcess_cpuHost _) (by decide!)⟩

/-- The claim C10 as the specification states it fails at the float64 nearest 0.15: that
value lies below 0.15, so rounded to one decimal place it is 0.1, but its float64
product with 10 is 1.5 and `collectMetrics` reports the float64 nearest 0.2, which is
neither 0.1 nor the float64 nearest 0.1. -/
theorem collectMetrics_cpuUsage_not_exact :
    ∃ m, collectMetrics exampleRuntime (cpuHost (float64 0.15)) = Outcome.ok m ∧
      float64 (float64 0.15) = float64 0.15 ∧
      float64 0.15 < 0.15 ∧
      exactRoundTenth (float64 0.15) = 1 / 10 ∧
      float64 (float64 0.15 * 10) = 3 / 2 ∧
      m.CPUUsage = float64 0.2 ∧
      m.CPUUsage ≠ exactRoundTenth (float64 0.15) ∧
      m.CPUUsage ≠ float64 (exactRoundTenth (float64 0.15)) :=
  ⟨_, collectMetrics_eq exampleRuntime (cpuHost (float64 0.15)) (float64 0.15) []
      sevenQualifyingTop rfl rfl rfl rfl (getProcess_cpuHost _),
    by decide!, by decide!, by decide!, by decide!, by decide!, by decide!, by decide!⟩

/-! ## The alert -/

theorem processBlocks_eq (i : Nat) (ps : List ProcessInfo) (blocks : List Block) :
    SendSlackAlert.processBlocks i ps blocks = blocks ++ lineBlocks i ps := by
  induction ps generalizing i blocks with
  | nil => simp [SendSlackAlert.processBlocks, lineBlocks]
  | cons p rest ih => simp [SendSlackAlert.processBlocks, lineBlocks, ih]

theorem lineBlocks_length (i : Nat) (ps : List ProcessInfo) :
    (lineBlocks i ps).length = ps.length := by
  induction ps generalizing i with
  | nil => rfl
  | cons p rest ih => simp [lineBlocks, ih]

theorem lineBlocks_getElem_some (i k : Nat) (ps : List ProcessInfo) (p : ProcessInfo)
    (h : ps[k]? = some p) :
    (lineBlocks i ps)[k]? = some (mrkdwnSection (processLine (i + k + 1) p)) := by
  induction ps generalizing i k with
  | nil => simp at h
  | cons q rest ih =>
    cases k with
    | zero =>
      simp only [List.getElem?_cons_zero, Option.some.injEq] at h
      simp [lineBlocks, h]
    | succ k =>
      simp only [List.getElem?_cons_succ] at h
      simp only [lineBlocks, List.getElem?_cons_succ]
      rw [ih (i + 1) k h]
      congr 3
      omega

theorem lineBlocks_congr (i : Nat) (l1 l2 : List ProcessInfo)
    (h : l1.map ProcessInfo.shown = l2.map ProcessInfo.shown) :
    lineBlocks i l1 = lineBlocks i l2 := by
  induction l1 generalizing i l2 with
  | nil =>
    cases l2 with
    | nil => rfl
    | cons b t => simp at h
  | cons a t ih =>
    cases l2 with
    | nil => simp at h
    | cons b t2 =>
      simp only [List.map_cons, List.cons.injEq, ProcessInfo.shown, Prod.mk.injEq] at h
      obtain ⟨⟨hn, hc, hm⟩, ht⟩ := h
      simp only [lineBlocks, processLine, hn, hc, hm, ih (i + 1) t2 ht]

theorem blocks_eq (cid : String) (metrics : Metrics) :
    SendSlackAlert.blocks cid metrics
      = [mrkdwnSection (headerText cid), Block.divider, mrkdwnSection explanationText,
          Block.divider] ++ lineBlocks 0 metrics.Processes := by
  simp [SendSlackAlert.blocks, processBlocks_eq]

theorem chrome_line :
    processLine 1
        { Pid := 10, Name := "chrome", CPU := 55.12, Memory := 30.44, CommandLine := "chrome" }
      = "*1.* `chrome` CPU - *55.12%* | Memory - *30.44%*" := by
  decide!

theorem node_line :
    processLine 2
        { Pid := 11, Name := "node", CPU := 20, Memory := 5.5, CommandLine := "node app.js" }
      = "*2.* `node` CPU - *20.00%* | Memory - *5.50%*" := by
  decide!

/-- C5. For a snapshot with `n` processes the block sequence built by `SendSlackAlert` has
`4 + n` blocks: the header section with the cluster identifier, a divider, the fixed
explanation section, a divider, and at position `4 + i` the section of the process at
position `i`, with rank `i + 1`, its name and its CPU and memory percent to two
decimals. For the snapshot of `chrome` (55.12 / 30.44) and `node` (20.00 / 5.50) these
are the six blocks listed, with ranks 1 and 2. -/
theorem SendSlackAlert_blocks (cid : String) (metrics : Metrics) :
    (SendSlackAlert.blocks cid metrics).length = 4 + metrics.Processes.length ∧
    (SendSlackAlert.blocks cid metrics).take 4
      = [ Block.textSection
            { type := "mrkdwn",
              text := "*🚨 [" ++ cid ++ "] Top CPU Consuming Processes 🚨*" },
          Block.divider,
          Block.textSection
            { type := "mrkdwn",
              text := "Please consider cleaning up or reviewing the following processes." },
          Block.divider ] ∧
    (∀ i p, metrics.Processes[i]? = some p →
      (SendSlackAlert.blocks cid metrics)[4 + i]?
        = some (Block.textSection
            { type := "mrkdwn",
              text := "*" ++ fmtInt (i + 1) ++ ".* `" ++ p.Name ++ "` CPU - *"
                ++ fmtFloat2 p.CPU ++ "%* | Memory - *" ++ fmtFloat2 p.Memory ++ "%*" })) ∧
    SendSlackAlert.blocks cid (exampleMetrics 81.2 chromeAndNode)
      = [ Block.textSection
            { type := "mrkdwn",
              text := "*🚨 [" ++ cid ++ "] Top CPU Consuming Processes 🚨*" },
          Block.divider,
          Block.textSection
            { type := "mrkdwn",
              text := "Please consider cleaning up or reviewing the following processes." },
          Block.divider,
          Block.textSection
            { type := "mrkdwn", text := "*1.* `chrome` CPU - *55.12%* | Memory - *30.44%*" },
          Block.textSection
            { type := "mrkdwn", text := "*2.* `node` CPU - *20.00%* | Memory - *5.50%*" } ] := by
  refine ⟨?_, ?_, ?_, ?_⟩
  · rw [blocks_eq]
    simp only [List.length_append, lineBlocks_length, List.length_cons, List.length_nil]
  · rw [blocks_eq]
    rfl
  · intro i p h
    rw [blocks_eq]
    have h4 : ([mrkdwnSection (headerText cid), Block.divider, mrkdwnSection explanationText,
        Block.divider] : List Block).length ≤ 4 + i := by simp
    rw [List.getElem?_append_right h4]
    have hi : 4 + i - ([mrkdwnSection (headerText cid), Block.divider,
        mrkdwnSection explanationText, Block.divider] : List Block).length = i := by simp
    rw [hi, lineBlocks_getElem_some 0 i _ p h]
    simp [mrkdwnSection, processLine]
  · rw [blocks_eq]
    have h1 := chrome_line
    have h2 := node_line
    simp only [exampleMetrics, chromeAndNode, lineBlocks, Nat.zero_add, Nat.reduceAdd, h1, h2]
    rfl

/-- C8. The payload built by `SendSlackAlert` is a function of the cluster identifier and
of the names, CPU percents and memory percents of the snapshot's processes, in order:
two snapshots that agree on these give the same payload, the same JSON body and the
same `SendSlackAlert` run, whatever their other fields are. -/
theorem SendSlackAlert_payload_congr (rt : Runtime) (cfg : Config) (m1 m2 : Metrics)
    (h : m1.Processes.map ProcessInfo.shown = m2.Processes.map ProcessInfo.shown) :
    SendSlackAlert.payload cfg.cid m1 = SendSlackAlert.payload cfg.cid m2 ∧
    rt.jsonMarshal (SendSlackAlert.payload cfg.cid m1)
      = rt.jsonMarshal (SendSlackAlert.payload cfg.cid m2) ∧
    SendSlackAlert rt cfg m1 = SendSlackAlert rt cfg m2 := by
  have hp : SendSlackAlert.payload cfg.cid m1 = SendSlackAlert.payload cfg.cid m2 := by
    unfold SendSlackAlert.payload
    rw [blocks_eq, blocks_eq, lineBlocks_congr 0 _ _ h]
  refine ⟨hp, by rw [hp], ?_⟩
  unfold SendSlackAlert
  rw [hp]

theorem SendSlackAlert_payload_congr_witness :
    exampleMetrics 81.2 chromeAndNode
      ≠ { exampleMetrics 99.9 chromeAndNodeAgain with
          Timestamp := "2025-06-30T12:00:00Z", MemoryUsed := 1, DiskTotal := 7 } ∧
    (SendSlackAlert.payload exampleConfig.cid (exampleMetrics 81.2 chromeAndNode)
        = SendSlackAlert.payload exampleConfig.cid
            { exampleMetrics 99.9 chromeAndNodeAgain with
              Timestamp := "2025-06-30T12:00:00Z", MemoryUsed := 1, DiskTotal := 7 } ∧
      exampleRuntime.jsonMarshal
          (SendSlackAlert.payload exampleConfig.cid (exampleMetrics 81.2 chromeAndNode))
        = exampleRuntime.jsonMarshal
            (SendSlackAlert.payload exampleConfig.cid
              { exampleMetrics 99.9 chromeAndNodeAgain with
                Timestamp := "2025-06-30T12:00:00Z", MemoryUsed := 1, DiskTotal := 7 }) ∧
      SendSlackAlert exampleRuntime exampleConfig (exampleMetrics 81.2 chromeAndNode)
        = SendSlackAlert exampleRuntime exampleConfig
            { exampleMetrics 99.9 chromeAndNodeAgain with
              Timestamp := "2025-06-30T12:00:00Z", MemoryUsed := 1, DiskTotal := 7 }) :=
  ⟨by decide!,
   SendSlackAlert_payload_congr exampleRuntime exampleConfig _ _ (by decide!)⟩

/-! ## The loop of `main` -/

theorem afterSample_alert (rt : Runtime) (cfg : Config) (metrics : Metrics)
    (hjson : ∀ p, (rt.jsonMarshal p).err = false) (h : metrics.CPUUsage > cfg.max) :
    mainCycle.afterSample rt cfg metrics
      = [ Event.format (SendSlackAlert.payload cfg.cid metrics),
          Event.post
            { url := cfg.webhookUrl, contentType := "application/json",
              body := (rt.jsonMarshal (SendSlackAlert.payload cfg.cid metrics)).val },
          Event.sleep 5 ] := by
  unfold mainCycle.afterSample SendSlackAlert
  simp only [h, if_true, hjson, Bool.false_eq_true, if_false]
  split <;> rfl

theorem afterSample_quiet (rt : Runtime) (cfg : Config) (metrics : Metrics)
    (h : ¬ metrics.CPUUsage > cfg.max) :
    mainCycle.afterSample rt cfg metrics = [Event.sleep 5] := by
  unfold mainCycle.afterSample
  simp only [h, if_false, List.nil_append]

/-- C4. In a loop iteration whose sampling returned the snapshot `metrics`, and with
`json.Marshal` succeeding on the payload, the formatter runs and an HTTP POST is
attempted exactly when `metrics.CPUUsage` is strictly greater than the threshold; the
iteration is then format, POST, sleep, and otherwise only the sleep. With threshold 80
a CPU usage of 81.2 gives a POST, 79.9 gives none, and a usage equal to the threshold
gives none. -/
theorem mainCycle_alert_iff (rt : Runtime) (cfg : Config) (metrics : Metrics)
    (hjson : ∀ p, (rt.jsonMarshal p).err = false) :
    (∀ host, collectMetrics rt host = Outcome.ok metrics →
      mainCycle rt cfg host = Outcome.ok (mainCycle.afterSample rt cfg metrics)) ∧
    ((∃ p, Event.format p ∈ mainCycle.afterSample rt cfg metrics)
      ↔ metrics.CPUUsage > cfg.max) ∧
    ((∃ r, Event.post r ∈ mainCycle.afterSample rt cfg metrics)
      ↔ metrics.CPUUsage > cfg.max) ∧
    (metrics.CPUUsage > cfg.max →
      mainCycle.afterSample rt cfg metrics
        = [ Event.format (SendSlackAlert.payload cfg.cid metrics),
            Event.post
              { url := cfg.webhookUrl, contentType := "application/json",
                body := (rt.jsonMarshal (SendSlackAlert.payload cfg.cid metrics)).val },
            Event.sleep 5 ]) ∧
    (¬ metrics.CPUUsage > cfg.max →
      mainCycle.afterSample rt cfg metrics = [Event.sleep 5]) ∧
    (cfg.max = 80 → metrics.CPUUsage = 81.2 →
      ∃ r, Event.post r ∈ mainCycle.afterSample rt cfg metrics) ∧
    (cfg.max = 80 → metrics.CPUUsage = 79.9 →
      ¬ ∃ r, Event.post r ∈ mainCycle.afterSample rt cfg metrics) ∧
    (metrics.CPUUsage = cfg.max →
      ¬ ∃ r, Event.post r ∈ mainCycle.afterSample rt cfg metrics) := by
  have hpost : (∃ r, Event.post r ∈ mainCycle.afterSample rt cfg metrics)
      ↔ metrics.CPUUsage > cfg.max := by
    by_cases h : metrics.CPUUsage > cfg.max
    · rw [afterSample_alert rt cfg metrics hjson h]
      simp [h]
    · rw [afterSample_quiet rt cfg metrics h]
      simp [h]
  have hformat : (∃ p, Event.format p ∈ mainCycle.afterSample rt cfg metrics)
      ↔ metrics.CPUUsage > cfg.max := by
    by_cases h : metrics.CPUUsage > cfg.max
    · rw [afterSample_alert rt cfg metrics hjson h]
      simp [h]
    · rw [afterSample_quiet rt cfg metrics h]
      simp [h]
  refine ⟨?_, hformat, hpost, afterSample_alert rt cfg metrics hjson,
    afterSample_quiet rt cfg metrics, ?_, ?_, ?_⟩
  · intro host hs
    unfold mainCycle
    rw [hs]
  · intro hmax hcpu
    rw [hpost, hmax, hcpu]
    norm_num
  · intro hmax hcpu
    rw [hpost, hmax, hcpu]
    norm_num
  · intro hcpu
    rw [hpost, hcpu]
    exact lt_irrefl _

theorem mainCycle_alert_iff_witness :
    (∃ r, Event.post r
      ∈ mainCycle.afterSample exampleRuntime exampleConfig (exampleMetrics 81.2 chromeAndNode)) ∧
    (¬ ∃ r, Event.post r
      ∈ mainCycle.afterSample exampleRuntime exampleConfig (exampleMetrics 79.9 chromeAndNode)) ∧
    (¬ ∃ r, Event.post r
      ∈ mainCycle.afterSample exampleRuntime exampleConfig (exampleMetrics 80 chromeAndNode)) ∧
    mainCycle.afterSample exampleRuntime exampleConfig (exampleMetrics 79.9 chromeAndNode)
      = [Event.sleep 5] :=
  ⟨(mainCycle_alert_iff exampleRuntime exampleConfig (exampleMetrics 81.2 chromeAndNode)
      (fun _ => rfl)).2.2.2.2.2.1 rfl rfl,
   (mainCycle_alert_iff exampleRuntime exampleConfig (exampleMetrics 79.9 chromeAndNode)
      (fun _ => rfl)).2.2.2.2.2.2.1 rfl rfl,
   (mainCycle_alert_iff exampleRuntime exampleConfig (exampleMetrics 80 chromeAndNode)
      (fun _ => rfl)).2.2.2.2.2.2.2 rfl,
   by decide!⟩

end ThorAgent
